import Mathlib

/-!
Shallow embedding of the `dialog_flow_framework` context-storage
benchmarking and cleanup utilities
(`dff/utils/benchmark/context_storage.py`, `dff/utils/testing/cleanup_db.py`),
together with a spec-modelled context storage engine, and proofs of the
specification claims about them.

Conventions of the embedding:
* machine integers and wall-clock durations are `Nat`;
* Python dicts appear as association lists in insertion order, with
  key-overwrite semantics;
* Python exceptions appear as `Except String`;
* `perf_counter` durations are supplied by the abstract storage model
  (each storage operation reports its own elapsed duration);
* `pympler.asizeof` (a memory-layout measurement) is an abstract size
  oracle `SizeFn`.
-/

namespace DFF

/-- Modelled from the spec: the `misc` field of a Context is an arbitrary
nested mapping of integer keys to scalar or nested-container values
(the `dff.script.Context` class itself is not among the sources; its shape
is taken from spec section 3 and from `get_context`). -/
inductive MiscVal where
  | str : String → MiscVal
  | dict : List (Nat × MiscVal) → MiscVal

/-- Embedding of `_get_dict` from `get_dict` in
`dff/utils/benchmark/context_storage.py`: a list of fewer than two lengths
produces a string of dots, otherwise a dict with `lengths[0]` keys each
mapped to the dictionary built from the remaining lengths. -/
def getDictAux : List Nat → MiscVal
  | [] => MiscVal.str ""
  | [n] => MiscVal.str (String.mk (List.replicate n '.'))
  | n :: rest => MiscVal.dict ((List.range n).map (fun i => (i, getDictAux rest)))

/-- Embedding of `get_dict`: dispatch on the number of dimensions exactly as
in the source (`len > 1`, `len == 1`, empty). -/
def get_dict (lengths : List Nat) : MiscVal :=
  match lengths with
  | [] => getDictAux [0, 0]
  | [n] => getDictAux [n, 0]
  | ls => getDictAux ls

/-- A `Message` as used by the benchmark: only its `misc` payload matters. -/
structure Message where
  misc : MiscVal

/-- Embedding of `get_message`. -/
def get_message (message_lengths : List Nat) : Message :=
  ⟨get_dict message_lengths⟩

/-- Modelled from the spec: a Context value (spec section 3) — ordered
mappings from turn-index to label, request and response, plus a `misc`
mapping. The class lives in `dff.script`, which is not among the sources. -/
structure Context where
  labels : List (Nat × (String × String))
  requests : List (Nat × Message)
  responses : List (Nat × Message)
  misc : MiscVal

/-- The `(f"flow_{i}", f"node_{i}")` label pair used by `get_context` and
`BenchmarkCase.get_context_updater`. -/
def flowLabel (i : Nat) : String × String :=
  (s!"flow_{i}", s!"node_{i}")

/-- Embedding of `get_context`: a context with `dialog_len` turns, labels
`(flow_i, node_i)`, identical generated requests/responses, and a generated
`misc` dictionary. -/
def get_context (dialog_len : Nat) (message_lengths misc_lengths : List Nat) : Context :=
  { labels := (List.range dialog_len).map (fun i => (i, flowLabel i))
    requests := (List.range dialog_len).map (fun i => (i, get_message message_lengths))
    responses := (List.range dialog_len).map (fun i => (i, get_message message_lengths))
    misc := get_dict misc_lengths }

/-- Modelled from the spec: the state of the Context Storage Engine
(`DBContextStorage` from `dff.context_storages`, not among the sources) —
per spec section 4.2 it exposes `write(id, context)` / `read(id)` with
`read` returning the value most recently written under the id. The most
recent write is kept at the head. -/
abbrev EngineState := List (Nat × Context)

/-- Modelled from the spec: `context_storage[ctx_id] = context`. -/
def engineWrite (s : EngineState) (ctx_id : Nat) (c : Context) : EngineState :=
  (ctx_id, c) :: s

/-- Modelled from the spec: `context_storage[ctx_id]`, a lookup of the most
recently written value under `ctx_id`. -/
def engineRead (s : EngineState) (ctx_id : Nat) : Option Context :=
  (s.find? (fun p => p.1 == ctx_id)).map (fun p => p.2)

/-- Abstract model of a `DBContextStorage` as used by
`time_context_read_write`: each operation either raises (`Except.error`) or
succeeds, and a successful operation reports the wall-clock duration that
`perf_counter` would have measured around it; a successful read also
reports the context the storage returned. -/
structure StorageModel where
  writeOp : Nat → Context → Except String Nat
  readOp : Nat → Except String (Context × Nat)
  clearOp : Except String Unit

/-- Python dict assignment `d[k] = v` on an insertion-ordered dict:
overwrite in place when the key is present, append otherwise. -/
def dictInsert (d : List (Nat × Nat)) (k v : Nat) : List (Nat × Nat) :=
  if d.any (fun p => p.1 == k) then
    d.map (fun p => if p.1 == k then (k, v) else p)
  else
    d ++ [(k, v)]

/-- The chain of updated contexts built by the
`while updated_contexts[-1] is not None` loop of `time_context_read_write`,
restricted to `updated_contexts[1:-1]`: the successive non-`None` results
of `context_updater`, starting from (but excluding) the initial context.
`fuel` bounds the number of iterations (the Python loop runs unboundedly;
every updater used by the harness terminates). -/
def buildChain (upd : Context → Option Context) : Nat → Context → List Context
  | 0, _ => []
  | Nat.succ fuel, c =>
    match upd c with
    | none => []
    | some c2 => c2 :: buildChain upd fuel c2

/-- The inner `for updated_context in updated_contexts[1:-1]` loop of
`time_context_read_write`: write the updated context (recording its
duration in the update dict under `len(updated_context.labels)`), then read
the id back (recording the duration in the read dict under the same key).
The accumulator is `(update dict, read dict)` of the current iteration. -/
def updateLoop (st : StorageModel) (ctx_id : Nat) :
    List Context → List (Nat × Nat) × List (Nat × Nat) →
    Except String (List (Nat × Nat) × List (Nat × Nat))
  | [], acc => Except.ok acc
  | uc :: rest, acc =>
    match st.writeOp ctx_id uc with
    | Except.error e => Except.error e
    | Except.ok udur =>
      match st.readOp ctx_id with
      | Except.error e => Except.error e
      | Except.ok p =>
        updateLoop st ctx_id rest
          (dictInsert acc.1 uc.labels.length udur,
           dictInsert acc.2 uc.labels.length p.2)

/-- One iteration of the `for _ in tqdm(range(context_num))` loop of
`time_context_read_write`: write `context` (recording a bare duration),
read the id back (recording the duration keyed by `len(context.labels)`;
the returned context is bound but never compared to `context` — the check
is commented out in the source), then, when a `context_updater` was given,
run the update loop. Returns `(write duration, read dict, update dict?)`
where the update dict is absent exactly when no updater was given. -/
def benchIteration (st : StorageModel) (context : Context)
    (updaterTail : Option (List Context)) (ctx_id : Nat) :
    Except String (Nat × List (Nat × Nat) × Option (List (Nat × Nat))) :=
  match st.writeOp ctx_id context with
  | Except.error e => Except.error e
  | Except.ok wdur =>
    match st.readOp ctx_id with
    | Except.error e => Except.error e
    | Except.ok p =>
      let rdict := dictInsert [] context.labels.length p.2
      match updaterTail with
      | none => Except.ok (wdur, rdict, none)
      | some tail =>
        match updateLoop st ctx_id tail ([], rdict) with
        | Except.error e => Except.error e
        | Except.ok r => Except.ok (wdur, r.2, some r.1)

/-- The main loop of `time_context_read_write`, accumulating
`(write_times, read_times, update_times)`; fresh ids (`uuid4()`) are
modelled by the iteration index. -/
def benchLoop (st : StorageModel) (context : Context)
    (updaterTail : Option (List Context)) :
    List Nat →
    List Nat × List (List (Nat × Nat)) × List (List (Nat × Nat)) →
    Except String (List Nat × List (List (Nat × Nat)) × List (List (Nat × Nat)))
  | [], acc => Except.ok acc
  | i :: rest, acc =>
    match benchIteration st context updaterTail i with
    | Except.error e => Except.error e
    | Except.ok r =>
      benchLoop st context updaterTail rest
        (acc.1 ++ [r.1], acc.2.1 ++ [r.2.1],
          match r.2.2 with
          | none => acc.2.2
          | some d => acc.2.2 ++ [d])

/-- Embedding of `time_context_read_write`: clear the storage, build the
updated-context chain when an updater is given, run `context_num`
iterations, clear again, and return the triple
`(write_times, read_times, update_times)` — a flat duration list and two
lists of per-iteration dicts keyed by `len(labels)`. -/
def time_context_read_write (st : StorageModel) (context : Context)
    (context_num : Nat) (context_updater : Option (Context → Option Context))
    (fuel : Nat) :
    Except String (List Nat × List (List (Nat × Nat)) × List (List (Nat × Nat))) :=
  match st.clearOp with
  | Except.error e => Except.error e
  | Except.ok _ =>
    let updaterTail := context_updater.map (fun upd => buildChain upd fuel context)
    match benchLoop st context updaterTail (List.range context_num) ([], [], []) with
    | Except.error e => Except.error e
    | Except.ok res =>
      match st.clearOp with
      | Except.error e => Except.error e
      | Except.ok _ => Except.ok res

/-- A heterogeneous component of the tuple returned by
`time_context_read_write`, as seen by Python tuple unpacking: either the
flat write-time series or a keyed (dialog-length → duration) series. -/
inductive Series where
  | flat : List Nat → Series
  | keyed : List (List (Nat × Nat)) → Series

/-- The value of `time_context_read_write(...)` as the tuple Python hands
to an unpacking assignment: a list of three `Series` components. -/
def tcrwTupleValues (st : StorageModel) (context : Context) (context_num : Nat)
    (context_updater : Option (Context → Option Context)) (fuel : Nat) :
    Except String (List Series) :=
  (time_context_read_write st context context_num context_updater fuel).map
    (fun r => [Series.flat r.1, Series.keyed r.2.1, Series.keyed r.2.2])

/-- Embedding of the per-storage body of `report`
(`dff/utils/benchmark/context_storage.py` lines 215-222):
`write, read = time_context_read_write(context_storage, context, context_num)`
inside `try`, recording either the unpacked pair or, on any exception, the
error message. Unpacking a tuple whose arity is not 2 raises `ValueError`,
which the `except` clause turns into the failure string. -/
def reportEntry (st : StorageModel) (context : Context) (context_num : Nat) :
    Sum (Series × Series) String :=
  match tcrwTupleValues st context context_num none 0 with
  | Except.error e => Sum.inr e
  | Except.ok vals =>
    match vals with
    | [a, b] => Sum.inl (a, b)
    | _ => Sum.inr "ValueError(\x27too many values to unpack (expected 2)\x27)"

/-- A storage whose operations always succeed instantly (all reported
durations zero) and whose reads return the empty context. -/
def okStorage : StorageModel :=
  { writeOp := fun _ _ => Except.ok 0
    readOp := fun _ => Except.ok (get_context 0 [] [], 0)
    clearOp := Except.ok () }

/-- Embedding of `DBFactory` (the fields serialized by `case.dict()`; the
`importlib` lookup in `db()` is abstracted by passing the storage each run
uses as an explicit argument). -/
structure DBFactory where
  uri : String
  factory_module : String := "dff.context_storages"
  factory : String := "context_storage_factory"

/-- Embedding of `BenchmarkCase` (its data fields). -/
structure BenchmarkCase where
  name : String
  db_factory : DBFactory
  uuid : String
  description : String := ""
  context_num : Nat := 100
  from_dialog_len : Nat := 300
  to_dialog_len : Nat := 311
  step_dialog_len : Nat := 1
  message_lengths : List Nat := [10, 10]
  misc_lengths : List Nat := [10, 10]

/-- Modelled from the spec: one turn appended by
`context.add_label(...)` / `add_request` / `add_response`
(`dff.script.Context` is not among the sources; per spec section 3 the
maps are append-only under a monotonically increasing turn-index, embedded
here as appending at the next free index). `i` is the loop variable naming
the label, as in `get_context_updater`. -/
def addTurn (message_lengths : List Nat) (c : Context) (i : Nat) : Context :=
  { c with
    labels := c.labels ++ [(c.labels.length, flowLabel i)]
    requests := c.requests ++ [(c.requests.length, get_message message_lengths)]
    responses := c.responses ++ [(c.responses.length, get_message message_lengths)] }

/-- Embedding of `BenchmarkCase.get_context_updater`: with
`start_len = len(context.requests)`, when
`start_len + step_dialog_len < to_dialog_len` append `step_dialog_len`
turns (labels `flow_i`/`node_i` for `i` in
`range(start_len, start_len + step_dialog_len)`) and return the context,
otherwise return `None`. -/
def BenchmarkCase.get_context_updater (bc : BenchmarkCase) :
    Context → Option Context := fun context =>
  let start_len := context.requests.length
  if start_len + bc.step_dialog_len < bc.to_dialog_len then
    some ((List.range' start_len bc.step_dialog_len).foldl
      (addTurn bc.message_lengths) context)
  else
    none

/-- Abstract oracle for `pympler.asizeof.asizeof` (an in-memory size
measurement, opaque to this embedding). -/
structure SizeFn where
  ofContext : Context → Nat
  ofMessage : Message → Nat
  ofMisc : MiscVal → Nat

/-- JSON values as produced by `json.dump`; objects are ordered key-value
lists. -/
inductive J where
  | str : String → J
  | nat : Nat → J
  | bool : Bool → J
  | arr : List J → J
  | obj : List (String × J) → J

/-- Lookup of a key in a JSON object field list (first match). -/
def jLookup (fields : List (String × J)) (k : String) : Option J :=
  (fields.find? (fun p => p.1 == k)).map (fun p => p.2)

/-- Python `{**a, **b}`: entries of `a` whose keys are overridden by `b`
are replaced; `b` entries follow. -/
def dictMerge (a b : List (String × J)) : List (String × J) :=
  a.filter (fun p => !(b.any (fun q => q.1 == p.1))) ++ b

/-- Serialization of the flat write-time series. -/
def serFlat (l : List Nat) : J :=
  J.arr (l.map J.nat)

/-- Serialization of a keyed (dialog length → duration) series;
`json.dump` renders integer dict keys as strings. -/
def serKeyed (ds : List (List (Nat × Nat))) : J :=
  J.arr (ds.map (fun d => J.obj (d.map (fun p => (toString p.1, J.nat p.2)))))

/-- The fields of `case.dict()` (pydantic serialization of
`BenchmarkCase`). -/
def BenchmarkCase.dictJ (bc : BenchmarkCase) : List (String × J) :=
  [("name", J.str bc.name),
   ("db_factory", J.obj
     [("uri", J.str bc.db_factory.uri),
      ("factory_module", J.str bc.db_factory.factory_module),
      ("factory", J.str bc.db_factory.factory)]),
   ("uuid", J.str bc.uuid),
   ("description", J.str bc.description),
   ("context_num", J.nat bc.context_num),
   ("from_dialog_len", J.nat bc.from_dialog_len),
   ("to_dialog_len", J.nat bc.to_dialog_len),
   ("step_dialog_len", J.nat bc.step_dialog_len),
   ("message_lengths", J.arr (bc.message_lengths.map J.nat)),
   ("misc_lengths", J.arr (bc.misc_lengths.map J.nat))]

/-- Embedding of `BenchmarkCase.sizes`: the four size metrics, computed by
the `asizeof` oracle on exactly the values the source passes to it. -/
def BenchmarkCase.sizes (bc : BenchmarkCase) (sz : SizeFn) : List (String × J) :=
  [("starting_context_size", J.nat (sz.ofContext
      (get_context bc.from_dialog_len bc.message_lengths bc.misc_lengths))),
   ("final_context_size", J.nat (sz.ofContext
      (get_context bc.to_dialog_len bc.message_lengths bc.misc_lengths))),
   ("misc_size", J.nat (sz.ofMisc (get_dict bc.misc_lengths))),
   ("message_size", J.nat (sz.ofMessage (get_message bc.message_lengths)))]

/-- The dict returned by `BenchmarkCase.run`: on success,
`{"success": True, "result": {"write_times": ..., "read_times": ...,
"update_times": ...}}`; on any exception, `{"success": False,
"result": <error message>}`. -/
def runJ (outcome :
    Except String (List Nat × List (List (Nat × Nat)) × List (List (Nat × Nat)))) :
    List (String × J) :=
  match outcome with
  | Except.ok r =>
    [("success", J.bool true),
     ("result", J.obj
       [("write_times", serFlat r.1),
        ("read_times", serKeyed r.2.1),
        ("update_times", serKeyed r.2.2)])]
  | Except.error e =>
    [("success", J.bool false),
     ("result", J.str e)]

/-- The `Except` computation inside the `try` of `BenchmarkCase.run`:
construct the storage (`self.db_factory.db()`, abstracted by `dbResult`)
and benchmark it on the starting context with the case's updater. -/
def BenchmarkCase.runExcept (bc : BenchmarkCase)
    (dbResult : Except String StorageModel) (fuel : Nat) :
    Except String (List Nat × List (List (Nat × Nat)) × List (List (Nat × Nat))) :=
  match dbResult with
  | Except.error e => Except.error e
  | Except.ok st =>
    time_context_read_write st
      (get_context bc.from_dialog_len bc.message_lengths bc.misc_lengths)
      bc.context_num (some bc.get_context_updater) fuel

/-- Embedding of `BenchmarkCase.run`: the `try`/`except` around
`time_context_read_write`, never letting an exception escape. -/
def BenchmarkCase.run (bc : BenchmarkCase)
    (dbResult : Except String StorageModel) (fuel : Nat) : List (String × J) :=
  runJ (bc.runExcept dbResult fuel)

/-- The `benchmarks` object built by the loop of `save_results_to_file`:
one entry per case, keyed by `case.uuid`, merging `case.dict()`,
`case.sizes()` and `case.run()`. `env` supplies the storage each case's
`db_factory.db()` constructs (or the construction error). -/
def benchEntry (env : BenchmarkCase → Except String StorageModel)
    (sz : SizeFn) (fuel : Nat) (bc : BenchmarkCase) : List (String × J) :=
  dictMerge (dictMerge bc.dictJ (bc.sizes sz)) (bc.run (env bc) fuel)

/-- The list of per-case entries of the `benchmarks` object. -/
def benchList (cases : List BenchmarkCase)
    (env : BenchmarkCase → Except String StorageModel)
    (sz : SizeFn) (fuel : Nat) : List (String × J) :=
  cases.map (fun bc => (bc.uuid, J.obj (benchEntry env sz fuel bc)))

/-- Embedding of `save_results_to_file`: the JSON document written to the
file (`uuid` is the fresh report uuid generated inside the function). -/
def save_results_to_file (cases : List BenchmarkCase)
    (name description uuid : String)
    (env : BenchmarkCase → Except String StorageModel)
    (sz : SizeFn) (fuel : Nat) : J :=
  J.obj
    [("name", J.str name),
     ("description", J.str description),
     ("uuid", J.str uuid),
     ("benchmarks", J.obj (benchList cases env sz fuel))]

/-- The module-level backend-availability flags imported by
`dff/utils/testing/cleanup_db.py` (there is no flag for Shelve, which is
part of the standard library). -/
structure Availability where
  json_available : Bool
  mongo_available : Bool
  pickle_available : Bool
  redis_available : Bool
  sqlite_available : Bool
  postgres_available : Bool
  mysql_available : Bool
  ydb_available : Bool

/-- A file-backed context storage (`JSONContextStorage`,
`PickleContextStorage`, `ShelveContextStorage`): only its `path` matters to
the teardown functions. -/
structure FileStorage where
  path : String

/-- A `MongoContextStorage` as seen by `delete_mongo`: the names of the
collections in `storage.collections`. -/
structure MongoStorage where
  collections : List String

/-- An `SQLContextStorage` as seen by `delete_sql`: its `dialect` and the
names of the tables in `storage.tables`. -/
structure SQLStorage where
  dialect : String
  tables : List String

/-- A `YDBContextStorage` as seen by `delete_ydb`. `list_fields` is
modelled from the spec: the update-scheme fields whose `field_type` is not
`VALUE` (`dff.context_storages.update_scheme` is not among the sources;
per spec section 3 these are `labels`, `requests`, `responses`).
`contexts_table` is `storage._CONTEXTS`. -/
structure YDBStorage where
  database : String
  table_prefix : String
  list_fields : List String
  contexts_table : String

/-- A teardown outcome: the raised error message, if any, together with
the resulting backend state (list of existing files / collections /
tables). -/
abbrev CleanupResult := Option String × List String

/-- Embedding of `delete_json`: raise when the JSON provider is
unavailable, otherwise remove the file at `storage.path` when it exists. -/
def delete_json (av : Availability) (storage : FileStorage)
    (fs : List String) : CleanupResult :=
  if !av.json_available then
    (some "Cannot delete JSON database - JSON provider unavailable!", fs)
  else
    (none, fs.filter (fun p => p ≠ storage.path))

/-- Embedding of `delete_pickle`. -/
def delete_pickle (av : Availability) (storage : FileStorage)
    (fs : List String) : CleanupResult :=
  if !av.pickle_available then
    (some "Cannot delete pickle database - pickle provider unavailable!", fs)
  else
    (none, fs.filter (fun p => p ≠ storage.path))

/-- Embedding of `delete_shelve`: no availability check exists in the
source; remove the file at `storage.path` when it exists. -/
def delete_shelve (storage : FileStorage) (fs : List String) : CleanupResult :=
  (none, fs.filter (fun p => p ≠ storage.path))

/-- Embedding of `delete_mongo`: raise when the Mongo provider is
unavailable, otherwise drop each collection in `storage.collections`. -/
def delete_mongo (av : Availability) (storage : MongoStorage)
    (db : List String) : CleanupResult :=
  if !av.mongo_available then
    (some "Cannot delete mongo database - mongo provider unavailable!", db)
  else
    (none, db.filter (fun c => !storage.collections.contains c))

/-- Modelled from the spec for the state effect only: `delete_redis` calls
`storage.clear_async()` (defined in `dff.context_storages`, not among the
sources), which per spec section 4.2 deletes all data for the backend. The
availability guard is embedded from the source. -/
def delete_redis (av : Availability) (db : List String) : CleanupResult :=
  if !av.redis_available then
    (some "Cannot delete redis database - redis provider unavailable!", db)
  else
    (none, [])

/-- Embedding of `delete_sql`: the three dialect availability guards (in
source order, each raising before any table is touched), then drop each
table in `storage.tables`. -/
def delete_sql (av : Availability) (storage : SQLStorage)
    (db : List String) : CleanupResult :=
  if storage.dialect == "postgres" && !av.postgres_available then
    (some "Cannot delete postgres database - postgres provider unavailable!", db)
  else if storage.dialect == "sqlite" && !av.sqlite_available then
    (some "Cannot delete sqlite database - sqlite provider unavailable!", db)
  else if storage.dialect == "mysql" && !av.mysql_available then
    (some "Cannot delete mysql database - mysql provider unavailable!", db)
  else
    (none, db.filter (fun t => !storage.tables.contains t))

/-- The table names dropped by `delete_ydb`:
`"/".join([storage.database, f"{storage.table_prefix}_{field}"])` for each
non-`VALUE` update-scheme field and for `storage._CONTEXTS`. -/
def ydbDroppedTables (storage : YDBStorage) : List String :=
  (storage.list_fields ++ [storage.contexts_table]).map
    (fun f => storage.database ++ "/" ++ YDBStorage.table_prefix storage ++ "_" ++ f)

/-- Embedding of `delete_ydb`: raise when the YDB provider is unavailable,
otherwise drop exactly the prefix-named tables of this storage. -/
def delete_ydb (av : Availability) (storage : YDBStorage)
    (db : List String) : CleanupResult :=
  if !av.ydb_available then
    (some "Cannot delete ydb database - ydb provider unavailable!", db)
  else
    (none, db.filter (fun t => !(ydbDroppedTables storage).contains t))

/-- The success/duration shape of a read outcome — the only part of a read
that `time_context_read_write` consumes (the returned context is bound to
`actual_context` but never inspected). -/
def readShape (r : Except String (Context × Nat)) : Except String Nat :=
  r.map (fun p => p.2)

/-- The dialog lengths (`len(labels)`) of the contexts involved in the
timed write/read calls of `time_context_read_write`: the benchmarked
context and every context produced by the updater chain. -/
def involvedLens (context : Context)
    (context_updater : Option (Context → Option Context)) (fuel : Nat) : List Nat :=
  context.labels.length ::
    (match context_updater with
     | none => []
     | some upd => (buildChain upd fuel context).map (fun c => c.labels.length))

/-- The dialog lengths of the updated contexts only (the contexts written
by the inner update loop). -/
def updatedLens (context : Context)
    (context_updater : Option (Context → Option Context)) (fuel : Nat) : List Nat :=
  match context_updater with
  | none => []
  | some upd => (buildChain upd fuel context).map (fun c => c.labels.length)

/-- The contexts a `BenchmarkCase` run writes into the storage during one
benchmark iteration: the starting context followed by every context
produced by the case's updater. -/
def writtenContexts (bc : BenchmarkCase) (fuel : Nat) : List Context :=
  get_context bc.from_dialog_len bc.message_lengths bc.misc_lengths ::
    buildChain bc.get_context_updater fuel
      (get_context bc.from_dialog_len bc.message_lengths bc.misc_lengths)

/-- A size oracle that reports zero for everything (for witnesses). -/
def sampleSizeFn : SizeFn :=
  ⟨fun _ => 0, fun _ => 0, fun _ => 0⟩

/-- A small concrete benchmark case (for witnesses). -/
def sampleCase : BenchmarkCase :=
  { name := "case"
    db_factory := { uri := "uri" }
    uuid := "u1"
    context_num := 1
    from_dialog_len := 1
    to_dialog_len := 2
    step_dialog_len := 1
    message_lengths := [0]
    misc_lengths := [0] }

/-- A small concrete benchmark case whose updater actually extends the
context (for witnesses). -/
def sampleCase2 : BenchmarkCase :=
  { name := "case2"
    db_factory := { uri := "uri" }
    uuid := "u2"
    context_num := 1
    from_dialog_len := 1
    to_dialog_len := 3
    step_dialog_len := 1
    message_lengths := [0]
    misc_lengths := [0] }

/-- A storage whose operations all succeed but whose reads return a
context different from anything written (for witnesses). -/
def mismatchStorage : StorageModel :=
  { writeOp := fun _ _ => Except.ok 0
    readOp := fun _ => Except.ok (get_context 3 [0] [0], 0)
    clearOp := Except.ok () }

/-- Every backend provider flagged unavailable (for witnesses). -/
def failAvailability : Availability :=
  ⟨false, false, false, false, false, false, false, false⟩

/-- Every backend provider flagged available (for witnesses). -/
def okAvailability : Availability :=
  ⟨true, true, true, true, true, true, true, true⟩

end DFF

namespace DFF

/-- C1: Round-trip persistence — after `context_storage[ctx_id] = context`,
reading `context_storage[ctx_id]` returns a context equal to the written one
field-for-field (labels, requests, responses, misc). -/
theorem c1_round_trip_persistence (s : EngineState) (ctx_id : Nat) (c : Context) :
    ∃ c2, engineRead (engineWrite s ctx_id c) ctx_id = some c2 ∧
      c2.labels = c.labels ∧ c2.requests = c.requests ∧
      c2.responses = c.responses ∧ c2.misc = c.misc := by
  refine ⟨c, ?_, rfl, rfl, rfl, rfl⟩
  simp [engineRead, engineWrite, List.find?]

/-- C2 (code-bug evidence): the claim is the intended behaviour, but the
code records EVERY storage as a failure string — even one whose write and
read operations all succeed — because `report` unpacks the 3-tuple
returned by `time_context_read_write` into two variables
(`write, read = time_context_read_write(...)`), which raises `ValueError`
inside the `try`, so no time-series pair and no averages are ever
recorded. -/
theorem c2_report_always_records_failure_string (st : StorageModel)
    (context : Context) (context_num : Nat) :
    ∃ e, reportEntry st context context_num = Sum.inr e := by
  cases h : time_context_read_write st context context_num none 0 with
  | error e =>
    exact ⟨e, by unfold reportEntry tcrwTupleValues; rw [h]; rfl⟩
  | ok r =>
    exact ⟨_, by unfold reportEntry tcrwTupleValues; rw [h]; rfl⟩

/-- C3: when a benchmark case's storage construction or any storage
operation raises, `BenchmarkCase.run` records `success = False` with the
error message as `result`, and `save_results_to_file` still records one
`benchmarks` entry per case of the run. -/
theorem c3_case_error_recorded_and_run_continues
    (cases : List BenchmarkCase) (env : BenchmarkCase → Except String StorageModel)
    (sz : SizeFn) (fuel : Nat) (bc : BenchmarkCase) (e : String)
    (hmem : bc ∈ cases)
    (herr : bc.runExcept (env bc) fuel = Except.error e) :
    jLookup (benchEntry env sz fuel bc) "success" = some (J.bool false) ∧
    jLookup (benchEntry env sz fuel bc) "result" = some (J.str e) ∧
    (bc.uuid, J.obj (benchEntry env sz fuel bc)) ∈ benchList cases env sz fuel ∧
    (benchList cases env sz fuel).length = cases.length := by
  have hrun : bc.run (env bc) fuel =
      [("success", J.bool false), ("result", J.str e)] := by
    unfold BenchmarkCase.run
    rw [herr]
    rfl
  refine ⟨?_, ?_, ?_, ?_⟩
  · show jLookup (dictMerge (dictMerge bc.dictJ (bc.sizes sz)) (bc.run (env bc) fuel))
      "success" = some (J.bool false)
    rw [hrun]
    rfl
  · show jLookup (dictMerge (dictMerge bc.dictJ (bc.sizes sz)) (bc.run (env bc) fuel))
      "result" = some (J.str e)
    rw [hrun]
    rfl
  · exact List.mem_map_of_mem _ hmem
  · simp [benchList]

/-- C3 witness: a concrete run of one case whose storage construction
raises `"boom"`. -/
theorem c3_witness :
    jLookup (benchEntry (fun _ => Except.error "boom") sampleSizeFn 3 sampleCase)
      "success" = some (J.bool false) ∧
    jLookup (benchEntry (fun _ => Except.error "boom") sampleSizeFn 3 sampleCase)
      "result" = some (J.str "boom") ∧
    (sampleCase.uuid, J.obj (benchEntry (fun _ => Except.error "boom") sampleSizeFn 3 sampleCase)) ∈
      benchList [sampleCase] (fun _ => Except.error "boom") sampleSizeFn 3 ∧
    (benchList [sampleCase] (fun _ => Except.error "boom") sampleSizeFn 3).length =
      [sampleCase].length :=
  c3_case_error_recorded_and_run_continues [sampleCase]
    (fun _ => Except.error "boom") sampleSizeFn 3 sampleCase "boom"
    (List.mem_singleton_self _) rfl

/-- C4: for every teardown function guarded by an availability flag (JSON,
Pickle, Mongo, Redis, YDB, and each SQL dialect), invoking it while the
backend's client library is unavailable raises an error and leaves the
backend state untouched — never a silent no-op. (The Shelve teardown has
no availability flag in the source because `shelve` is part of the
standard library, so the claim's hypothesis is unsatisfiable for it.) -/
theorem c4_unavailable_backend_teardown_raises
    (av : Availability) (stJ stP : FileStorage) (ms : MongoStorage)
    (ss : SQLStorage) (ys : YDBStorage) (fs db : List String)
    (hj : av.json_available = false) (hp : av.pickle_available = false)
    (hm : av.mongo_available = false) (hr : av.redis_available = false)
    (hy : av.ydb_available = false) :
    (∃ msg, delete_json av stJ fs = (some msg, fs)) ∧
    (∃ msg, delete_pickle av stP fs = (some msg, fs)) ∧
    (∃ msg, delete_mongo av ms db = (some msg, db)) ∧
    (∃ msg, delete_redis av db = (some msg, db)) ∧
    (∃ msg, delete_ydb av ys db = (some msg, db)) ∧
    (ss.dialect = "postgres" → av.postgres_available = false →
      ∃ msg, delete_sql av ss db = (some msg, db)) ∧
    (ss.dialect = "sqlite" → av.sqlite_available = false →
      ∃ msg, delete_sql av ss db = (some msg, db)) ∧
    (ss.dialect = "mysql" → av.mysql_available = false →
      ∃ msg, delete_sql av ss db = (some msg, db)) := by
  refine ⟨?_, ?_, ?_, ?_, ?_, ?_, ?_, ?_⟩
  · exact ⟨"Cannot delete JSON database - JSON provider unavailable!",
      by simp [delete_json, hj]⟩
  · exact ⟨"Cannot delete pickle database - pickle provider unavailable!",
      by simp [delete_pickle, hp]⟩
  · exact ⟨"Cannot delete mongo database - mongo provider unavailable!",
      by simp [delete_mongo, hm]⟩
  · exact ⟨"Cannot delete redis database - redis provider unavailable!",
      by simp [delete_redis, hr]⟩
  · exact ⟨"Cannot delete ydb database - ydb provider unavailable!",
      by simp [delete_ydb, hy]⟩
  · intro hd hflag
    refine ⟨"Cannot delete postgres database - postgres provider unavailable!", ?_⟩
    unfold delete_sql
    rw [hd, hflag]
    rfl
  · intro hd hflag
    refine ⟨"Cannot delete sqlite database - sqlite provider unavailable!", ?_⟩
    unfold delete_sql
    rw [hd, hflag]
    rfl
  · intro hd hflag
    refine ⟨"Cannot delete mysql database - mysql provider unavailable!", ?_⟩
    unfold delete_sql
    rw [hd, hflag]
    rfl

/-- C4 witness: concrete storages on a runtime with every provider
unavailable. -/
theorem c4_witness :
    (∃ msg, delete_json failAvailability ⟨"db.json"⟩ ["f"] =
      (some msg, ["f"])) ∧
    (∃ msg, delete_pickle failAvailability ⟨"db.pkl"⟩ ["f"] =
      (some msg, ["f"])) ∧
    (∃ msg, delete_mongo failAvailability ⟨["coll"]⟩ ["t"] =
      (some msg, ["t"])) ∧
    (∃ msg, delete_redis failAvailability ["t"] = (some msg, ["t"])) ∧
    (∃ msg, delete_ydb failAvailability ⟨"db", "pre", ["labels"], "contexts"⟩
      ["t"] = (some msg, ["t"])) ∧
    ((⟨"postgres", ["t"]⟩ : SQLStorage).dialect = "postgres" →
      failAvailability.postgres_available = false →
      ∃ msg, delete_sql failAvailability ⟨"postgres", ["t"]⟩ ["t"] =
        (some msg, ["t"])) ∧
    ((⟨"postgres", ["t"]⟩ : SQLStorage).dialect = "sqlite" →
      failAvailability.sqlite_available = false →
      ∃ msg, delete_sql failAvailability ⟨"postgres", ["t"]⟩ ["t"] =
        (some msg, ["t"])) ∧
    ((⟨"postgres", ["t"]⟩ : SQLStorage).dialect = "mysql" →
      failAvailability.mysql_available = false →
      ∃ msg, delete_sql failAvailability ⟨"postgres", ["t"]⟩ ["t"] =
        (some msg, ["t"])) :=
  c4_unavailable_backend_teardown_raises failAvailability
    ⟨"db.json"⟩ ⟨"db.pkl"⟩ ⟨["coll"]⟩ ⟨"postgres", ["t"]⟩
    ⟨"db", "pre", ["labels"], "contexts"⟩ ["f"] ["t"]
    rfl rfl rfl rfl rfl

/-- Filtering twice with the same predicate equals filtering once. -/
theorem filterTwice {α : Type} (p : α → Bool) (l : List α) :
    (l.filter p).filter p = l.filter p := by
  induction l with
  | nil => rfl
  | cons a t ih =>
    by_cases h : p a = true <;> simp [List.filter_cons, h, ih]

/-- C5: the file-based teardowns (JSON, Pickle, Shelve) are idempotent:
running one twice in a row raises nothing and gives the same resulting
state as running it once, the backing file is gone afterwards, and running
it when the backing file does not exist raises nothing and leaves the
file system unchanged. -/
theorem c5_file_teardown_idempotent (av : Availability) (stF : FileStorage)
    (fs : List String) (hj : av.json_available = true)
    (hp : av.pickle_available = true) :
    ((delete_json av stF fs).1 = none ∧
     delete_json av stF (delete_json av stF fs).2 = delete_json av stF fs ∧
     stF.path ∉ (delete_json av stF fs).2 ∧
     (stF.path ∉ fs → delete_json av stF fs = (none, fs))) ∧
    ((delete_pickle av stF fs).1 = none ∧
     delete_pickle av stF (delete_pickle av stF fs).2 = delete_pickle av stF fs ∧
     stF.path ∉ (delete_pickle av stF fs).2 ∧
     (stF.path ∉ fs → delete_pickle av stF fs = (none, fs))) ∧
    ((delete_shelve stF fs).1 = none ∧
     delete_shelve stF (delete_shelve stF fs).2 = delete_shelve stF fs ∧
     stF.path ∉ (delete_shelve stF fs).2 ∧
     (stF.path ∉ fs → delete_shelve stF fs = (none, fs))) := by
  refine ⟨⟨?_, ?_, ?_, ?_⟩, ⟨?_, ?_, ?_, ?_⟩, ⟨?_, ?_, ?_, ?_⟩⟩
  · simp [delete_json, hj]
  · simp [delete_json, hj, filterTwice]
  · simp [delete_json, hj, List.mem_filter]
  · intro h
    simp [delete_json, hj]
    exact fun a ha he => h (he ▸ ha)
  · simp [delete_pickle, hp]
  · simp [delete_pickle, hp, filterTwice]
  · simp [delete_pickle, hp, List.mem_filter]
  · intro h
    simp [delete_pickle, hp]
    exact fun a ha he => h (he ▸ ha)
  · simp [delete_shelve]
  · simp [delete_shelve, filterTwice]
  · simp [delete_shelve, List.mem_filter]
  · intro h
    simp [delete_shelve]
    exact fun a ha he => h (he ▸ ha)

/-- C5 witness: a concrete storage whose backing file was never written. -/
theorem c5_witness :
    ((delete_json okAvailability ⟨"f"⟩ ["g"]).1 = none ∧
     delete_json okAvailability ⟨"f"⟩ (delete_json okAvailability ⟨"f"⟩ ["g"]).2 =
       delete_json okAvailability ⟨"f"⟩ ["g"] ∧
     (⟨"f"⟩ : FileStorage).path ∉ (delete_json okAvailability ⟨"f"⟩ ["g"]).2 ∧
     ((⟨"f"⟩ : FileStorage).path ∉ ["g"] →
       delete_json okAvailability ⟨"f"⟩ ["g"] = (none, ["g"]))) ∧
    ((delete_pickle okAvailability ⟨"f"⟩ ["g"]).1 = none ∧
     delete_pickle okAvailability ⟨"f"⟩ (delete_pickle okAvailability ⟨"f"⟩ ["g"]).2 =
       delete_pickle okAvailability ⟨"f"⟩ ["g"] ∧
     (⟨"f"⟩ : FileStorage).path ∉ (delete_pickle okAvailability ⟨"f"⟩ ["g"]).2 ∧
     ((⟨"f"⟩ : FileStorage).path ∉ ["g"] →
       delete_pickle okAvailability ⟨"f"⟩ ["g"] = (none, ["g"]))) ∧
    ((delete_shelve ⟨"f"⟩ ["g"]).1 = none ∧
     delete_shelve ⟨"f"⟩ (delete_shelve ⟨"f"⟩ ["g"]).2 =
       delete_shelve ⟨"f"⟩ ["g"] ∧
     (⟨"f"⟩ : FileStorage).path ∉ (delete_shelve ⟨"f"⟩ ["g"]).2 ∧
     ((⟨"f"⟩ : FileStorage).path ∉ ["g"] →
       delete_shelve ⟨"f"⟩ ["g"] = (none, ["g"]))) :=
  c5_file_teardown_idempotent okAvailability ⟨"f"⟩ ["g"] rfl rfl

/-- C8: each teardown deletes exactly the data owned by its storage
instance and nothing else: `delete_sql` drops exactly the tables in
`storage.tables`, `delete_mongo` exactly the collections in
`storage.collections`, `delete_ydb` exactly its tables, each of whose
names is built from the storage's `table_prefix`, and the file-based
teardowns remove exactly the file at `storage.path`; everything not owned
is preserved. -/
theorem c8_teardown_deletes_exactly_owned_data (av : Availability)
    (ms : MongoStorage) (ss : SQLStorage) (ys : YDBStorage)
    (stF : FileStorage) (db fs : List String)
    (hpost : av.postgres_available = true) (hsq : av.sqlite_available = true)
    (hmy : av.mysql_available = true) (hmg : av.mongo_available = true)
    (hy : av.ydb_available = true) (hj : av.json_available = true)
    (hpk : av.pickle_available = true) :
    ((delete_sql av ss db).1 = none ∧
     ∀ t, t ∈ (delete_sql av ss db).2 ↔ (t ∈ db ∧ t ∉ ss.tables)) ∧
    ((delete_mongo av ms db).1 = none ∧
     ∀ c, c ∈ (delete_mongo av ms db).2 ↔ (c ∈ db ∧ c ∉ ms.collections)) ∧
    ((delete_ydb av ys db).1 = none ∧
     (∀ t, t ∈ (delete_ydb av ys db).2 ↔ (t ∈ db ∧ t ∉ ydbDroppedTables ys)) ∧
     (∀ t ∈ ydbDroppedTables ys, ∃ f, f ∈ ys.list_fields ++ [ys.contexts_table] ∧
       t = ys.database ++ "/" ++ YDBStorage.table_prefix ys ++ "_" ++ f)) ∧
    (∀ p, p ∈ (delete_json av stF fs).2 ↔ (p ∈ fs ∧ p ≠ stF.path)) ∧
    (∀ p, p ∈ (delete_pickle av stF fs).2 ↔ (p ∈ fs ∧ p ≠ stF.path)) ∧
    (∀ p, p ∈ (delete_shelve stF fs).2 ↔ (p ∈ fs ∧ p ≠ stF.path)) := by
  refine ⟨⟨?_, ?_⟩, ⟨?_, ?_⟩, ⟨?_, ?_, ?_⟩, ?_, ?_, ?_⟩
  · simp [delete_sql, hpost, hsq, hmy]
  · intro t
    simp [delete_sql, hpost, hsq, hmy, List.mem_filter]
  · simp [delete_mongo, hmg]
  · intro c
    simp [delete_mongo, hmg, List.mem_filter]
  · simp [delete_ydb, hy]
  · intro t
    simp [delete_ydb, hy, List.mem_filter]
  · intro t ht
    rcases List.mem_map.mp ht with ⟨f, hf, hft⟩
    exact ⟨f, hf, hft.symm⟩
  · intro p
    simp [delete_json, hj, List.mem_filter]
  · intro p
    simp [delete_pickle, hpk, List.mem_filter]
  · intro p
    simp [delete_shelve, List.mem_filter]

/-- C8 witness: concrete storages in worlds holding both owned and
non-owned data. -/
theorem c8_witness :
    ((delete_sql okAvailability ⟨"postgres", ["t1"]⟩ ["t1", "t2"]).1 = none ∧
     ∀ t, t ∈ (delete_sql okAvailability ⟨"postgres", ["t1"]⟩ ["t1", "t2"]).2 ↔
       (t ∈ ["t1", "t2"] ∧ t ∉ (⟨"postgres", ["t1"]⟩ : SQLStorage).tables)) ∧
    ((delete_mongo okAvailability ⟨["c1"]⟩ ["t1", "t2"]).1 = none ∧
     ∀ c, c ∈ (delete_mongo okAvailability ⟨["c1"]⟩ ["t1", "t2"]).2 ↔
       (c ∈ ["t1", "t2"] ∧ c ∉ (⟨["c1"]⟩ : MongoStorage).collections)) ∧
    ((delete_ydb okAvailability ⟨"db", "pre", ["labels"], "contexts"⟩
        ["t1", "t2"]).1 = none ∧
     (∀ t, t ∈ (delete_ydb okAvailability ⟨"db", "pre", ["labels"], "contexts"⟩
        ["t1", "t2"]).2 ↔
       (t ∈ ["t1", "t2"] ∧
        t ∉ ydbDroppedTables ⟨"db", "pre", ["labels"], "contexts"⟩)) ∧
     (∀ t ∈ ydbDroppedTables ⟨"db", "pre", ["labels"], "contexts"⟩,
       ∃ f, f ∈ (⟨"db", "pre", ["labels"], "contexts"⟩ : YDBStorage).list_fields ++
           [(⟨"db", "pre", ["labels"], "contexts"⟩ : YDBStorage).contexts_table] ∧
         t = (⟨"db", "pre", ["labels"], "contexts"⟩ : YDBStorage).database ++ "/" ++
           YDBStorage.table_prefix ⟨"db", "pre", ["labels"], "contexts"⟩ ++ "_" ++ f)) ∧
    (∀ p, p ∈ (delete_json okAvailability ⟨"f"⟩ ["f", "g"]).2 ↔
      (p ∈ ["f", "g"] ∧ p ≠ (⟨"f"⟩ : FileStorage).path)) ∧
    (∀ p, p ∈ (delete_pickle okAvailability ⟨"f"⟩ ["f", "g"]).2 ↔
      (p ∈ ["f", "g"] ∧ p ≠ (⟨"f"⟩ : FileStorage).path)) ∧
    (∀ p, p ∈ (delete_shelve ⟨"f"⟩ ["f", "g"]).2 ↔
      (p ∈ ["f", "g"] ∧ p ≠ (⟨"f"⟩ : FileStorage).path)) :=
  c8_teardown_deletes_exactly_owned_data okAvailability ⟨["c1"]⟩
    ⟨"postgres", ["t1"]⟩ ⟨"db", "pre", ["labels"], "contexts"⟩ ⟨"f"⟩
    ["t1", "t2"] ["f", "g"] rfl rfl rfl rfl rfl rfl rfl

/-- A pair in a dict after insertion carries the inserted key or the key of
an existing pair. -/
theorem dictInsert_key {d : List (Nat × Nat)} {k v : Nat} {p : Nat × Nat}
    (hp : p ∈ dictInsert d k v) : p.1 = k ∨ ∃ q ∈ d, p.1 = q.1 := by
  unfold dictInsert at hp
  split at hp
  · rcases List.mem_map.mp hp with ⟨q, hq, hpq⟩
    split at hpq
    · left
      rw [← hpq]
    · right
      exact ⟨q, hq, by rw [← hpq]⟩
  · rcases List.mem_append.mp hp with h1 | h1
    · right
      exact ⟨p, h1, rfl⟩
    · left
      rw [List.mem_singleton.mp h1]

/-- Keys recorded by the update loop: every key added to the update dict or
to the read dict is the `len(labels)` of one of the updated contexts. -/
theorem updateLoop_keys (st : StorageModel) (ctx_id : Nat)
    (lensU lensR : List Nat) :
    ∀ (tail : List Context) (acc res : List (Nat × Nat) × List (Nat × Nat)),
      updateLoop st ctx_id tail acc = Except.ok res →
      (∀ uc ∈ tail, uc.labels.length ∈ lensU) →
      (∀ uc ∈ tail, uc.labels.length ∈ lensR) →
      (∀ p ∈ acc.1, p.1 ∈ lensU) → (∀ p ∈ acc.2, p.1 ∈ lensR) →
      (∀ p ∈ res.1, p.1 ∈ lensU) ∧ (∀ p ∈ res.2, p.1 ∈ lensR) := by
  intro tail
  induction tail with
  | nil =>
    intro acc res h _ _ h1 h2
    simp only [updateLoop] at h
    injection h with h3
    subst h3
    exact ⟨h1, h2⟩
  | cons uc rest ih =>
    intro acc res h htailU htailR h1 h2
    cases hw : st.writeOp ctx_id uc with
    | error e => simp [updateLoop, hw] at h
    | ok udur =>
      cases hr : st.readOp ctx_id with
      | error e => simp [updateLoop, hw, hr] at h
      | ok p =>
        simp only [updateLoop, hw, hr] at h
        refine ih _ res h
          (fun x hx => htailU x (List.mem_cons_of_mem _ hx))
          (fun x hx => htailR x (List.mem_cons_of_mem _ hx)) ?_ ?_
        · intro q hq
          rcases dictInsert_key hq with hk | ⟨q2, hq2, hqq⟩
          · rw [hk]
            exact htailU uc (List.mem_cons_self _ _)
          · rw [hqq]
            exact h1 q2 hq2
        · intro q hq
          rcases dictInsert_key hq with hk | ⟨q2, hq2, hqq⟩
          · rw [hk]
            exact htailR uc (List.mem_cons_self _ _)
          · rw [hqq]
            exact h2 q2 hq2

/-- Keys recorded by one benchmark iteration: read-dict keys come from the
benchmarked context or the updated contexts; update-dict keys come from
the updated contexts only. -/
theorem benchIteration_keys (st : StorageModel) (context : Context)
    (updaterTail : Option (List Context)) (ctx_id : Nat)
    (lensU lensR : List Nat)
    (r : Nat × List (Nat × Nat) × Option (List (Nat × Nat)))
    (h : benchIteration st context updaterTail ctx_id = Except.ok r)
    (hc : context.labels.length ∈ lensR)
    (htailU : ∀ tail, updaterTail = some tail → ∀ uc ∈ tail, uc.labels.length ∈ lensU)
    (htailR : ∀ tail, updaterTail = some tail → ∀ uc ∈ tail, uc.labels.length ∈ lensR) :
    (∀ p ∈ r.2.1, p.1 ∈ lensR) ∧
    (∀ d, r.2.2 = some d → ∀ p ∈ d, p.1 ∈ lensU) := by
  have hrd : ∀ v, ∀ p2 ∈ dictInsert [] context.labels.length v, p2.1 ∈ lensR := by
    intro v p2 hp2
    rcases dictInsert_key hp2 with hk | ⟨q2, hq2, _⟩
    · rw [hk]
      exact hc
    · exact absurd hq2 (List.not_mem_nil q2)
  cases hw : st.writeOp ctx_id context with
  | error e => simp [benchIteration, hw] at h
  | ok wdur =>
    cases hr : st.readOp ctx_id with
    | error e => simp [benchIteration, hw, hr] at h
    | ok p =>
      cases updaterTail with
      | none =>
        simp only [benchIteration, hw, hr] at h
        injection h with h2
        subst h2
        refine ⟨hrd p.2, ?_⟩
        intro d hd
        exact absurd hd (by simp)
      | some tail =>
        cases hu : updateLoop st ctx_id tail
            ([], dictInsert [] context.labels.length p.2) with
        | error e => simp [benchIteration, hw, hr, hu] at h
        | ok r2 =>
          simp only [benchIteration, hw, hr, hu] at h
          injection h with h2
          subst h2
          have hk := updateLoop_keys st ctx_id lensU lensR tail
            ([], dictInsert [] context.labels.length p.2) r2 hu
            (htailU tail rfl) (htailR tail rfl)
            (fun q hq => absurd hq (List.not_mem_nil q)) (hrd p.2)
          refine ⟨hk.2, ?_⟩
          intro d hd
          injection hd with hd2
          subst hd2
          exact hk.1

/-- Keys accumulated by the main benchmark loop. -/
theorem benchLoop_keys (st : StorageModel) (context : Context)
    (updaterTail : Option (List Context)) (lensU lensR : List Nat)
    (hc : context.labels.length ∈ lensR)
    (htailU : ∀ tail, updaterTail = some tail → ∀ uc ∈ tail, uc.labels.length ∈ lensU)
    (htailR : ∀ tail, updaterTail = some tail → ∀ uc ∈ tail, uc.labels.length ∈ lensR) :
    ∀ (ids : List Nat)
      (acc res : List Nat × List (List (Nat × Nat)) × List (List (Nat × Nat))),
      benchLoop st context updaterTail ids acc = Except.ok res →
      (∀ d ∈ acc.2.1, ∀ p ∈ d, p.1 ∈ lensR) →
      (∀ d ∈ acc.2.2, ∀ p ∈ d, p.1 ∈ lensU) →
      (∀ d ∈ res.2.1, ∀ p ∈ d, p.1 ∈ lensR) ∧
      (∀ d ∈ res.2.2, ∀ p ∈ d, p.1 ∈ lensU) := by
  intro ids
  induction ids with
  | nil =>
    intro acc res h h1 h2
    simp only [benchLoop] at h
    injection h with h3
    subst h3
    exact ⟨h1, h2⟩
  | cons i rest ih =>
    intro acc res h h1 h2
    cases hb : benchIteration st context updaterTail i with
    | error e => simp [benchLoop, hb] at h
    | ok r =>
      simp only [benchLoop, hb] at h
      have hkeys := benchIteration_keys st context updaterTail i lensU lensR r
        hb hc htailU htailR
      have hread : ∀ d ∈ acc.2.1 ++ [r.2.1], ∀ p ∈ d, p.1 ∈ lensR := by
        intro d hd
        rcases List.mem_append.mp hd with hd1 | hd1
        · exact h1 d hd1
        · rw [List.mem_singleton.mp hd1]
          exact hkeys.1
      cases hopt : r.2.2 with
      | none =>
        simp only [hopt] at h
        exact ih _ res h hread h2
      | some d2 =>
        simp only [hopt] at h
        refine ih _ res h hread ?_
        intro d hd
        rcases List.mem_append.mp hd with hd1 | hd1
        · exact h2 d hd1
        · rw [List.mem_singleton.mp hd1]
          exact hkeys.2 d2 hopt

/-- C6 (amended): the read and update time series are keyed by dialog
length — every key of every per-iteration dict in the read series is the
`len(labels)` of the benchmarked context or of one of the updated
contexts, and every key in the update series is the `len(labels)` of one
of the updated contexts — whereas the write series is a flat list of bare
durations carrying no dialog-length key (see the counterexample). -/
theorem c6_read_update_series_keyed_by_dialog_len (st : StorageModel)
    (context : Context) (context_num : Nat)
    (upd : Option (Context → Option Context)) (fuel : Nat)
    (w : List Nat) (r u : List (List (Nat × Nat)))
    (h : time_context_read_write st context context_num upd fuel =
      Except.ok (w, r, u)) :
    (∀ d ∈ r, ∀ p ∈ d, p.1 ∈ involvedLens context upd fuel) ∧
    (∀ d ∈ u, ∀ p ∈ d, p.1 ∈ updatedLens context upd fuel) := by
  cases hc1 : st.clearOp with
  | error e => simp [time_context_read_write, hc1] at h
  | ok unit1 =>
    cases hbl : benchLoop st context
        (upd.map (fun f => buildChain f fuel context))
        (List.range context_num) ([], [], []) with
    | error e => simp [time_context_read_write, hc1, hbl] at h
    | ok res =>
      simp only [time_context_read_write, hc1, hbl] at h
      have hres : res = (w, r, u) := by injection h
      subst hres
      have hkeys := benchLoop_keys st context
        (upd.map (fun f => buildChain f fuel context))
        (updatedLens context upd fuel) (involvedLens context upd fuel)
        (by simp [involvedLens])
        ?_ ?_ (List.range context_num) ([], [], []) (w, r, u) hbl
        (by intro d hd; exact absurd hd (List.not_mem_nil d))
        (by intro d hd; exact absurd hd (List.not_mem_nil d))
      · exact hkeys
      · intro tail htail uc huc
        cases upd with
        | none => simp at htail
        | some f =>
          simp only [Option.map] at htail
          injection htail with htail2
          subst htail2
          simp only [updatedLens]
          exact List.mem_map_of_mem _ huc
      · intro tail htail uc huc
        cases upd with
        | none => simp at htail
        | some f =>
          simp only [Option.map] at htail
          injection htail with htail2
          subst htail2
          simp only [involvedLens]
          exact List.mem_cons_of_mem _ (List.mem_map_of_mem _ huc)

/-- C6 counterexample: the claim is false for the write series — two runs
over contexts of different dialog lengths (1 and 2) record identical
write-time series `[0]`, bare durations with no dialog-length key, while
the read series stores each duration under the dialog length. -/
theorem c6_counterexample_write_series_not_keyed :
    time_context_read_write okStorage (get_context 1 [0] [0]) 1 none 0 =
      Except.ok ([0], [[(1, 0)]], []) ∧
    time_context_read_write okStorage (get_context 2 [0] [0]) 1 none 0 =
      Except.ok ([0], [[(2, 0)]], []) ∧
    (get_context 1 [0] [0]).labels.length ≠ (get_context 2 [0] [0]).labels.length :=
  ⟨rfl, rfl, by decide⟩

/-- C6 witness: a concrete run whose read series is keyed by the dialog
length 1 of the benchmarked context. -/
theorem c6_witness :
    (∀ d ∈ [[(1, 0)]], ∀ p ∈ d,
      p.1 ∈ involvedLens (get_context 1 [0] [0]) none 0) ∧
    (∀ d ∈ ([] : List (List (Nat × Nat))), ∀ p ∈ d,
      p.1 ∈ updatedLens (get_context 1 [0] [0]) none 0) :=
  c6_read_update_series_keyed_by_dialog_len okStorage (get_context 1 [0] [0])
    1 none 0 [0] [[(1, 0)]] [] rfl

/-- Two reads with the same shape are either the same error or successes
with the same duration (possibly different contexts). -/
theorem readShape_cases (r r2 : Except String (Context × Nat))
    (h : readShape r = readShape r2) :
    (∃ e, r = Except.error e ∧ r2 = Except.error e) ∨
    (∃ c d c2, r = Except.ok (c, d) ∧ r2 = Except.ok (c2, d)) := by
  cases r with
  | error e =>
    cases r2 with
    | error e2 =>
      left
      simp only [readShape, Except.map] at h
      injection h with h2
      exact ⟨e, rfl, by rw [h2]⟩
    | ok p => simp [readShape, Except.map] at h
  | ok p =>
    cases r2 with
    | error e2 => simp [readShape, Except.map] at h
    | ok p2 =>
      right
      simp only [readShape, Except.map] at h
      injection h with h2
      exact ⟨p.1, p.2, p2.1, rfl, by rw [h2]⟩

/-- The update loop never looks at the contexts returned by reads. -/
theorem updateLoop_congr (st st2 : StorageModel) (ctx_id : Nat)
    (hw : st.writeOp = st2.writeOp)
    (hr : ∀ i, readShape (st.readOp i) = readShape (st2.readOp i)) :
    ∀ tail acc, updateLoop st ctx_id tail acc = updateLoop st2 ctx_id tail acc := by
  intro tail
  induction tail with
  | nil => intro acc; rfl
  | cons uc rest ih =>
    intro acc
    simp only [updateLoop, hw]
    cases hww : st2.writeOp ctx_id uc with
    | error e => simp only [hww]
    | ok udur =>
      simp only [hww]
      rcases readShape_cases (st.readOp ctx_id) (st2.readOp ctx_id) (hr ctx_id) with
        ⟨e, h1, h2⟩ | ⟨c, d, c2, h1, h2⟩
      · simp only [h1, h2]
      · simp only [h1, h2]
        exact ih _

/-- One benchmark iteration never looks at the contexts returned by
reads. -/
theorem benchIteration_congr (st st2 : StorageModel) (context : Context)
    (updaterTail : Option (List Context)) (ctx_id : Nat)
    (hw : st.writeOp = st2.writeOp)
    (hr : ∀ i, readShape (st.readOp i) = readShape (st2.readOp i)) :
    benchIteration st context updaterTail ctx_id =
      benchIteration st2 context updaterTail ctx_id := by
  simp only [benchIteration, hw]
  cases hww : st2.writeOp ctx_id context with
  | error e => simp only [hww]
  | ok wdur =>
    simp only [hww]
    rcases readShape_cases (st.readOp ctx_id) (st2.readOp ctx_id) (hr ctx_id) with
      ⟨e, h1, h2⟩ | ⟨c, d, c2, h1, h2⟩
    · simp only [h1, h2]
    · simp only [h1, h2]
      cases updaterTail with
      | none => rfl
      | some tail =>
        simp only [updateLoop_congr st st2 ctx_id hw hr]

/-- The main benchmark loop never looks at the contexts returned by
reads. -/
theorem benchLoop_congr (st st2 : StorageModel) (context : Context)
    (updaterTail : Option (List Context))
    (hw : st.writeOp = st2.writeOp)
    (hr : ∀ i, readShape (st.readOp i) = readShape (st2.readOp i)) :
    ∀ ids acc, benchLoop st context updaterTail ids acc =
      benchLoop st2 context updaterTail ids acc := by
  intro ids
  induction ids with
  | nil => intro acc; rfl
  | cons i rest ih =>
    intro acc
    simp only [benchLoop,
      benchIteration_congr st st2 context updaterTail i hw hr]
    cases hbb : benchIteration st2 context updaterTail i with
    | error e => simp only [hbb]
    | ok r =>
      simp only [hbb]
      exact ih _

/-- The update loop succeeds whenever the storage operations succeed. -/
theorem updateLoop_ok (st : StorageModel) (ctx_id : Nat)
    (hw : ∀ i c, ∃ d, st.writeOp i c = Except.ok d)
    (hr : ∀ i, ∃ p, st.readOp i = Except.ok p) :
    ∀ tail acc, ∃ res, updateLoop st ctx_id tail acc = Except.ok res := by
  intro tail
  induction tail with
  | nil => intro acc; exact ⟨acc, rfl⟩
  | cons uc rest ih =>
    intro acc
    rcases hw ctx_id uc with ⟨d, hd⟩
    rcases hr ctx_id with ⟨p, hp⟩
    rcases ih (dictInsert acc.1 uc.labels.length d,
      dictInsert acc.2 uc.labels.length p.2) with ⟨res, hres⟩
    exact ⟨res, by simp only [updateLoop, hd, hp]; exact hres⟩

/-- One benchmark iteration succeeds whenever the storage operations
succeed. -/
theorem benchIteration_ok (st : StorageModel) (context : Context)
    (updaterTail : Option (List Context)) (ctx_id : Nat)
    (hw : ∀ i c, ∃ d, st.writeOp i c = Except.ok d)
    (hr : ∀ i, ∃ p, st.readOp i = Except.ok p) :
    ∃ r, benchIteration st context updaterTail ctx_id = Except.ok r := by
  rcases hw ctx_id context with ⟨d, hd⟩
  rcases hr ctx_id with ⟨p, hp⟩
  cases updaterTail with
  | none =>
    exact ⟨(d, dictInsert [] context.labels.length p.2, none),
      by simp only [benchIteration, hd, hp]⟩
  | some tail =>
    rcases updateLoop_ok st ctx_id hw hr tail
      ([], dictInsert [] context.labels.length p.2) with ⟨r2, hr2⟩
    exact ⟨(d, r2.2, some r2.1),
      by simp only [benchIteration, hd, hp, hr2]⟩

/-- The main benchmark loop succeeds whenever the storage operations
succeed. -/
theorem benchLoop_ok (st : StorageModel) (context : Context)
    (updaterTail : Option (List Context))
    (hw : ∀ i c, ∃ d, st.writeOp i c = Except.ok d)
    (hr : ∀ i, ∃ p, st.readOp i = Except.ok p) :
    ∀ ids acc, ∃ res, benchLoop st context updaterTail ids acc = Except.ok res := by
  intro ids
  induction ids with
  | nil => intro acc; exact ⟨acc, rfl⟩
  | cons i rest ih =>
    intro acc
    rcases benchIteration_ok st context updaterTail i hw hr with ⟨r, hit⟩
    rcases ih (acc.1 ++ [r.1], acc.2.1 ++ [r.2.1],
      match r.2.2 with
      | none => acc.2.2
      | some d => acc.2.2 ++ [d]) with ⟨res, hres⟩
    exact ⟨res, by simp only [benchLoop, hit]; exact hres⟩

/-- C9: `time_context_read_write` performs no mismatch check on the
contexts its reads return (the documented RuntimeError is commented out):
its result is identical for any two storages that differ only in the
contexts returned by reads, and a storage whose operations all succeed
completes with a success result no matter what contexts its reads
return. -/
theorem c9_no_mismatch_check (st st2 : StorageModel) (context : Context)
    (context_num : Nat) (upd : Option (Context → Option Context)) (fuel : Nat)
    (hw : st.writeOp = st2.writeOp) (hc : st.clearOp = st2.clearOp)
    (hr : ∀ i, readShape (st.readOp i) = readShape (st2.readOp i)) :
    time_context_read_write st context context_num upd fuel =
      time_context_read_write st2 context context_num upd fuel ∧
    (st.clearOp = Except.ok () →
     (∀ i c, ∃ d, st.writeOp i c = Except.ok d) →
     (∀ i, ∃ p, st.readOp i = Except.ok p) →
     ∃ res, time_context_read_write st context context_num upd fuel =
       Except.ok res) := by
  constructor
  · simp only [time_context_read_write, hc]
    cases hcc : st2.clearOp with
    | error e => simp only [hcc]
    | ok u1 =>
      simp only [hcc]
      rw [benchLoop_congr st st2 context
        (Option.map (fun f => buildChain f fuel context) upd) hw hr]
  · intro hclear hwok hrok
    rcases benchLoop_ok st context
        (Option.map (fun f => buildChain f fuel context) upd) hwok hrok
        (List.range context_num) ([], [], []) with ⟨res, hres⟩
    exact ⟨res, by simp only [time_context_read_write, hclear, hres]⟩

/-- C9 witness: a storage whose reads return a context with 3 turns that
was never written still benchmarks identically to the honest storage and
completes successfully. -/
theorem c9_witness :
    time_context_read_write okStorage (get_context 1 [0] [0]) 1 none 0 =
      time_context_read_write mismatchStorage (get_context 1 [0] [0]) 1 none 0 ∧
    (okStorage.clearOp = Except.ok () →
     (∀ i c, ∃ d, okStorage.writeOp i c = Except.ok d) →
     (∀ i, ∃ p, okStorage.readOp i = Except.ok p) →
     ∃ res, time_context_read_write okStorage (get_context 1 [0] [0]) 1 none 0 =
       Except.ok res) :=
  c9_no_mismatch_check okStorage mismatchStorage (get_context 1 [0] [0])
    1 none 0 rfl rfl (fun _ => rfl)

/-- A generated context has exactly `dialog_len` labels and requests. -/
theorem get_context_lengths (n : Nat) (m k : List Nat) :
    (get_context n m k).labels.length = n ∧
    (get_context n m k).requests.length = n := by
  simp [get_context]

/-- Appending one turn grows labels and requests by one. -/
theorem addTurn_lengths (m : List Nat) (c : Context) (i : Nat) :
    (addTurn m c i).labels.length = c.labels.length + 1 ∧
    (addTurn m c i).requests.length = c.requests.length + 1 := by
  simp [addTurn]

/-- Folding `addTurn` over a list of indices grows labels and requests by
the number of indices. -/
theorem foldl_addTurn_lengths (m : List Nat) :
    ∀ (l : List Nat) (c : Context),
      (l.foldl (addTurn m) c).labels.length = c.labels.length + l.length ∧
      (l.foldl (addTurn m) c).requests.length = c.requests.length + l.length := by
  intro l
  induction l with
  | nil => intro c; simp
  | cons i rest ih =>
    intro c
    simp only [List.foldl_cons, List.length_cons]
    rcases ih (addTurn m c i) with ⟨h1, h2⟩
    rcases addTurn_lengths m c i with ⟨h3, h4⟩
    constructor
    · rw [h1, h3]
      omega
    · rw [h2, h4]
      omega

/-- The updater returns `None` exactly when the next step would reach
`to_dialog_len`. -/
theorem get_context_updater_none_iff (bc : BenchmarkCase) (c : Context) :
    bc.get_context_updater c = none ↔
      bc.to_dialog_len ≤ c.requests.length + bc.step_dialog_len := by
  unfold BenchmarkCase.get_context_updater
  by_cases h : c.requests.length + bc.step_dialog_len < bc.to_dialog_len
  · rw [if_pos h]
    constructor
    · intro h2
      exact absurd h2 (by simp)
    · intro h2
      omega
  · rw [if_neg h]
    constructor
    · intro _
      omega
    · intro _
      rfl

/-- When the updater returns a context, it has grown by exactly
`step_dialog_len` turns and stays strictly below `to_dialog_len`. -/
theorem get_context_updater_some (bc : BenchmarkCase) (c c2 : Context)
    (h : bc.get_context_updater c = some c2) :
    c2.labels.length = c.labels.length + bc.step_dialog_len ∧
    c2.requests.length = c.requests.length + bc.step_dialog_len ∧
    c.requests.length + bc.step_dialog_len < bc.to_dialog_len := by
  unfold BenchmarkCase.get_context_updater at h
  by_cases hcond : c.requests.length + bc.step_dialog_len < bc.to_dialog_len
  · rw [if_pos hcond] at h
    injection h with h2
    subst h2
    rcases foldl_addTurn_lengths bc.message_lengths
      (List.range' c.requests.length bc.step_dialog_len) c with ⟨h3, h4⟩
    refine ⟨?_, ?_, hcond⟩
    · rw [h3, List.length_range']
    · rw [h4, List.length_range']
  · rw [if_neg hcond] at h
    exact Option.noConfusion h

/-- Every context in the updater chain is balanced and has fewer than
`to_dialog_len` turns. -/
theorem chain_lengths_bound (bc : BenchmarkCase) :
    ∀ (fuel : Nat) (c : Context), c.labels.length = c.requests.length →
      ∀ x ∈ buildChain bc.get_context_updater fuel c,
        x.labels.length = x.requests.length ∧
        x.requests.length < bc.to_dialog_len := by
  intro fuel
  induction fuel with
  | zero =>
    intro c hc x hx
    exact absurd hx (List.not_mem_nil x)
  | succ f ih =>
    intro c hc x hx
    simp only [buildChain] at hx
    cases hu : bc.get_context_updater c with
    | none =>
      simp only [hu] at hx
      exact absurd hx (List.not_mem_nil x)
    | some c2 =>
      simp only [hu] at hx
      rcases get_context_updater_some bc c c2 hu with ⟨h1, h2, h3⟩
      have hc2 : c2.labels.length = c2.requests.length := by
        rw [h1, h2, hc]
      rcases List.mem_cons.mp hx with hx1 | hx1
      · subst hx1
        exact ⟨hc2, by omega⟩
      · exact ih c2 hc2 x hx1

/-- C10: the case's context updater stops before `to_dialog_len` — it
returns `None` as soon as the current length plus `step_dialog_len` is not
strictly below `to_dialog_len`, every context it produces stays strictly
below `to_dialog_len` turns, and (when `from_dialog_len < to_dialog_len`)
every context actually written during a run has at most
`to_dialog_len - 1` turns — while `sizes()` computes
`final_context_size` on a context with exactly `to_dialog_len` turns. -/
theorem c10_updater_stops_before_to_dialog_len (bc : BenchmarkCase)
    (sz : SizeFn) (fuel : Nat) (c c2 : Context)
    (hfromto : bc.from_dialog_len < bc.to_dialog_len) :
    (bc.get_context_updater c = none ↔
      bc.to_dialog_len ≤ c.requests.length + bc.step_dialog_len) ∧
    (bc.get_context_updater c = some c2 →
      c2.requests.length = c.requests.length + bc.step_dialog_len ∧
      c2.requests.length < bc.to_dialog_len) ∧
    (∀ x ∈ writtenContexts bc fuel, x.labels.length ≤ bc.to_dialog_len - 1) ∧
    jLookup (bc.sizes sz) "final_context_size" =
      some (J.nat (sz.ofContext
        (get_context bc.to_dialog_len bc.message_lengths bc.misc_lengths))) ∧
    (get_context bc.to_dialog_len bc.message_lengths bc.misc_lengths).labels.length =
      bc.to_dialog_len := by
  refine ⟨get_context_updater_none_iff bc c, ?_, ?_, rfl,
    (get_context_lengths bc.to_dialog_len bc.message_lengths bc.misc_lengths).1⟩
  · intro h
    rcases get_context_updater_some bc c c2 h with ⟨_, h2, h3⟩
    constructor
    · exact h2
    · omega
  · intro x hx
    rcases get_context_lengths bc.from_dialog_len bc.message_lengths
      bc.misc_lengths with ⟨hg1, hg2⟩
    rcases List.mem_cons.mp hx with hx1 | hx1
    · subst hx1
      rw [hg1]
      omega
    · rcases chain_lengths_bound bc fuel
        (get_context bc.from_dialog_len bc.message_lengths bc.misc_lengths)
        (by rw [hg1, hg2]) x hx1 with ⟨hb1, hb2⟩
      rw [hb1]
      omega

/-- C10 witness: the concrete case with `from_dialog_len = 1`,
`to_dialog_len = 3`, `step_dialog_len = 1`. -/
theorem c10_witness :
    (sampleCase2.get_context_updater (get_context 1 [0] [0]) = none ↔
      sampleCase2.to_dialog_len ≤
        (get_context 1 [0] [0]).requests.length + sampleCase2.step_dialog_len) ∧
    (sampleCase2.get_context_updater (get_context 1 [0] [0]) =
        some (get_context 2 [0] [0]) →
      (get_context 2 [0] [0]).requests.length =
        (get_context 1 [0] [0]).requests.length + sampleCase2.step_dialog_len ∧
      (get_context 2 [0] [0]).requests.length < sampleCase2.to_dialog_len) ∧
    (∀ x ∈ writtenContexts sampleCase2 5,
      x.labels.length ≤ sampleCase2.to_dialog_len - 1) ∧
    jLookup (sampleCase2.sizes sampleSizeFn) "final_context_size" =
      some (J.nat (sampleSizeFn.ofContext
        (get_context sampleCase2.to_dialog_len sampleCase2.message_lengths
          sampleCase2.misc_lengths))) ∧
    (get_context sampleCase2.to_dialog_len sampleCase2.message_lengths
      sampleCase2.misc_lengths).labels.length = sampleCase2.to_dialog_len :=
  c10_updater_stops_before_to_dialog_len sampleCase2 sampleSizeFn 5
    (get_context 1 [0] [0]) (get_context 2 [0] [0]) (by decide)

/-- C7: the report written by `save_results_to_file` is a JSON object with
fields `name`, `description`, `uuid`, and a `benchmarks` object holding
one entry per case; every case entry carries a `success` flag and the four
size metrics, and when the case succeeded its `result` is an object with
`write_times`, `read_times` and `update_times`. -/
theorem c7_report_structure (cases : List BenchmarkCase)
    (name description uuid : String)
    (env : BenchmarkCase → Except String StorageModel) (sz : SizeFn)
    (fuel : Nat) (bc : BenchmarkCase) (hbc : bc ∈ cases) :
    (∃ tops, save_results_to_file cases name description uuid env sz fuel =
        J.obj tops ∧
      jLookup tops "name" = some (J.str name) ∧
      jLookup tops "description" = some (J.str description) ∧
      jLookup tops "uuid" = some (J.str uuid) ∧
      ∃ bl, jLookup tops "benchmarks" = some (J.obj bl) ∧
        (bc.uuid, J.obj (benchEntry env sz fuel bc)) ∈ bl ∧
        bl.length = cases.length) ∧
    (∃ b, jLookup (benchEntry env sz fuel bc) "success" = some (J.bool b)) ∧
    jLookup (benchEntry env sz fuel bc) "misc_size" =
      some (J.nat (sz.ofMisc (get_dict bc.misc_lengths))) ∧
    jLookup (benchEntry env sz fuel bc) "message_size" =
      some (J.nat (sz.ofMessage (get_message bc.message_lengths))) ∧
    jLookup (benchEntry env sz fuel bc) "starting_context_size" =
      some (J.nat (sz.ofContext
        (get_context bc.from_dialog_len bc.message_lengths bc.misc_lengths))) ∧
    jLookup (benchEntry env sz fuel bc) "final_context_size" =
      some (J.nat (sz.ofContext
        (get_context bc.to_dialog_len bc.message_lengths bc.misc_lengths))) ∧
    (∀ res, bc.runExcept (env bc) fuel = Except.ok res →
      jLookup (benchEntry env sz fuel bc) "success" = some (J.bool true) ∧
      jLookup (benchEntry env sz fuel bc) "result" = some (J.obj
        [("write_times", serFlat res.1),
         ("read_times", serKeyed res.2.1),
         ("update_times", serKeyed res.2.2)])) := by
  have htop : ∃ tops,
      save_results_to_file cases name description uuid env sz fuel =
        J.obj tops ∧
      jLookup tops "name" = some (J.str name) ∧
      jLookup tops "description" = some (J.str description) ∧
      jLookup tops "uuid" = some (J.str uuid) ∧
      ∃ bl, jLookup tops "benchmarks" = some (J.obj bl) ∧
        (bc.uuid, J.obj (benchEntry env sz fuel bc)) ∈ bl ∧
        bl.length = cases.length := by
    refine ⟨_, rfl, rfl, rfl, rfl,
      ⟨benchList cases env sz fuel, rfl, ?_, ?_⟩⟩
    · exact List.mem_map_of_mem _ hbc
    · simp [benchList]
  cases hres : bc.runExcept (env bc) fuel with
  | error e =>
    have hbe : benchEntry env sz fuel bc =
        dictMerge (dictMerge bc.dictJ (bc.sizes sz))
          [("success", J.bool false), ("result", J.str e)] := by
      unfold benchEntry BenchmarkCase.run
      rw [hres]
      rfl
    refine ⟨htop, ⟨false, ?_⟩, ?_, ?_, ?_, ?_, ?_⟩
    · rw [hbe]
      rfl
    · rw [hbe]
      rfl
    · rw [hbe]
      rfl
    · rw [hbe]
      rfl
    · rw [hbe]
      rfl
    · intro res hcontra
      exact Except.noConfusion hcontra
  | ok res0 =>
    have hbe : benchEntry env sz fuel bc =
        dictMerge (dictMerge bc.dictJ (bc.sizes sz))
          [("success", J.bool true), ("result", J.obj
            [("write_times", serFlat res0.1),
             ("read_times", serKeyed res0.2.1),
             ("update_times", serKeyed res0.2.2)])] := by
      unfold benchEntry BenchmarkCase.run
      rw [hres]
      rfl
    refine ⟨htop, ⟨true, ?_⟩, ?_, ?_, ?_, ?_, ?_⟩
    · rw [hbe]
      rfl
    · rw [hbe]
      rfl
    · rw [hbe]
      rfl
    · rw [hbe]
      rfl
    · rw [hbe]
      rfl
    · intro res hres2
      injection hres2 with h3
      subst h3
      constructor
      · rw [hbe]
        rfl
      · rw [hbe]
        rfl

/-- C7 witness: a concrete one-case report over a storage whose operations
all succeed. -/
theorem c7_witness :
    (∃ tops, save_results_to_file [sampleCase] "nm" "ds" "uu"
        (fun _ => Except.ok okStorage) sampleSizeFn 3 = J.obj tops ∧
      jLookup tops "name" = some (J.str "nm") ∧
      jLookup tops "description" = some (J.str "ds") ∧
      jLookup tops "uuid" = some (J.str "uu") ∧
      ∃ bl, jLookup tops "benchmarks" = some (J.obj bl) ∧
        (sampleCase.uuid, J.obj (benchEntry (fun _ => Except.ok okStorage)
          sampleSizeFn 3 sampleCase)) ∈ bl ∧
        bl.length = [sampleCase].length) ∧
    (∃ b, jLookup (benchEntry (fun _ => Except.ok okStorage) sampleSizeFn 3
      sampleCase) "success" = some (J.bool b)) ∧
    jLookup (benchEntry (fun _ => Except.ok okStorage) sampleSizeFn 3
      sampleCase) "misc_size" =
      some (J.nat (sampleSizeFn.ofMisc (get_dict sampleCase.misc_lengths))) ∧
    jLookup (benchEntry (fun _ => Except.ok okStorage) sampleSizeFn 3
      sampleCase) "message_size" =
      some (J.nat (sampleSizeFn.ofMessage (get_message sampleCase.message_lengths))) ∧
    jLookup (benchEntry (fun _ => Except.ok okStorage) sampleSizeFn 3
      sampleCase) "starting_context_size" =
      some (J.nat (sampleSizeFn.ofContext (get_context sampleCase.from_dialog_len
        sampleCase.message_lengths sampleCase.misc_lengths))) ∧
    jLookup (benchEntry (fun _ => Except.ok okStorage) sampleSizeFn 3
      sampleCase) "final_context_size" =
      some (J.nat (sampleSizeFn.ofContext (get_context sampleCase.to_dialog_len
        sampleCase.message_lengths sampleCase.misc_lengths))) ∧
    (∀ res, sampleCase.runExcept (Except.ok okStorage) 3 = Except.ok res →
      jLookup (benchEntry (fun _ => Except.ok okStorage) sampleSizeFn 3
        sampleCase) "success" = some (J.bool true) ∧
      jLookup (benchEntry (fun _ => Except.ok okStorage) sampleSizeFn 3
        sampleCase) "result" = some (J.obj
        [("write_times", serFlat res.1),
         ("read_times", serKeyed res.2.1),
         ("update_times", serKeyed res.2.2)])) :=
  c7_report_structure [sampleCase] "nm" "ds" "uu"
    (fun _ => Except.ok okStorage) sampleSizeFn 3 sampleCase
    (List.mem_singleton_self _)

end DFF
